import Mathlib

/-!
Shallow embedding of `src/rbtree.c` / `src/rbtree.h` (yazeed1s/rb_tree).

Modelling conventions:
* A tree node (`struct node_t`) carries a key, a color and two child links; an
  absent child (`NULL`) is `node_t.nil`.  Parent pointers are represented
  positionally: a node's parent is the node above it, and the root has no
  parent by construction, which is exactly the shape `rb_validate_tree`
  asserts (`root->parent == NULL`).
* Keys are `void *` pointers that the C code compares directly with `<` and
  `>`; we model a key as the pointer's numeric value, a `Nat`.  A `NULL` key
  at the API boundary is `Option.none`.
* `color_t` is a C enum stored in an `int`-sized field (`RED = 1`,
  `BLACK = 2`), and `rb_validate_tree_recursive` explicitly tests for values
  outside the enum, so colors are embedded as `Nat`, not as a two-element
  type.
* The violation bitmask `rb_validation_t` is a `Nat` built with `|||` from
  the flag constants 0x01, 0x02, 0x04, 0x08, 0x10.
* The black-height counter `int *black_h` can go negative, so it is an `Int`.
* Functions that mutate through pointers are embedded in state-passing style:
  they return the (re)constructed subtree together with the out-parameters.
-/

/-- color_t RED = 1. -/
def RED : Nat := 1

/-- color_t BLACK = 2. -/
def BLACK : Nat := 2

/-- A tree: either an absent child (NULL) or a node with key, color and two
children.  Field order in the C struct is key, parent, left, right, color;
the parent back-reference is positional here. -/
inductive node_t where
  | nil : node_t
  | node (left : node_t) (key : Nat) (color : Nat) (right : node_t) : node_t
deriving DecidableEq

/-- The C idiom `n && IS_RED(n)`: a non-NULL node whose stored color is RED. -/
def isRed : node_t → Bool
  | .nil => false
  | .node _ _ c _ => c == RED

/-- create_node: returns NULL when the key is NULL, otherwise a fresh node
with the given key, all links NULL and the color field not yet set (the
caller assigns it before the node is ever read).  We model the returned node
by its key; `none` is the NULL return (also standing for malloc failure,
which we assume away). -/
def create_node (val : Option Nat) : Option Nat :=
  match val with
  | none => none
  | some k => some k

/-- rb_insert_node: plain BST descent from a non-NULL root.  `k < x` and
`k > x` are the C's raw pointer comparisons `newnode->key < current->key`,
`newnode->key > current->key`.  An equal key returns with nothing linked.
The `.nil` equation is the attach step: the parent's NULL child slot is
overwritten with the new node and `newnode->color = RED` is set.
(`insert_node` never calls this with an empty root.) -/
def rb_insert_node : node_t → Nat → node_t
  | .nil, k => .node .nil k RED .nil
  | .node l x c r, k =>
      if k < x then .node (rb_insert_node l k) x c r
      else if x < k then .node l x c (rb_insert_node r k)
      else .node l x c r

/-- insert_node, pure tree transformer for a non-NULL key: the first node of
an empty tree becomes the BLACK root; otherwise rb_insert_node runs.  The
subsequent rb_validate_tree call in the C only prints; it never changes the
tree, so the post-state is exactly this.  (rb_rebalance, rb_rotate and
rb_color_flip are never invoked anywhere in the source.) -/
def insert_node (root : node_t) (k : Nat) : node_t :=
  match root with
  | .nil => .node .nil k BLACK .nil
  | .node l x c r => rb_insert_node (.node l x c r) k

/-- Outcome of a call to the C `insert_node`: a normal return with the new
root, or process termination by the failed `assert(newnode)`, with the tree
as it stood at the abort. -/
inductive InsertOutcome where
  | ret (root : node_t) : InsertOutcome
  | abortWith (root : node_t) : InsertOutcome
deriving DecidableEq

/-- insert_node at the C boundary, where the key may be NULL: create_node
returns NULL for a NULL key, `assert(newnode)` fails and the process
terminates before `*root` is ever touched; otherwise the insert proceeds
normally and returns void. -/
def insert_node_outcome (root : node_t) (val : Option Nat) : InsertOutcome :=
  match create_node val with
  | none => .abortWith root
  | some k => .ret (insert_node root k)

/-- delete_node: the function body in the source is empty; the tree reachable
from root is returned exactly as it was. -/
def delete_node (root : node_t) (val : Nat) : node_t :=
  root

/-- search: the function body in the source is empty and the return type is
void, so a call computes nothing and yields no node. -/
def search (n : node_t) (query_key : Nat) : Unit :=
  ()

/-- rb_get_black_height: walks the LEFT spine, counting `!IS_RED` nodes, but
the loop guard `while (curr->left)` exits before the bottom node of the
spine is examined, so that node is never counted.  The function is only
called on a non-NULL root (on NULL the C would dereference a null pointer;
the `.nil` equation is dead code kept total). -/
def rb_get_black_height : node_t → Int
  | .nil => 0
  | .node .nil _ _ _ => 0
  | .node (.node a b d e) _ c _ =>
      (if c != RED then 1 else 0) + rb_get_black_height (.node a b d e)

/-- rb_validate_tree_recursive in state-passing form: the result is the
subtree as left in memory after the call, the violation mask, and the final
value of `*black_h`.  At a NULL leaf a non-zero remaining budget sets
RB_UNEQUAL_BLACK_PATHS (0x10).  At a node: a color outside {RED, BLACK}
sets RB_INVALID_COLOR (0x01); `IS_BLACK` decrements the budget; a RED node
with a non-NULL RED child sets RB_RED_CHILD_OF_RED (0x08); then the left
subtree is walked, `*black_h` is restored to the saved value, and the right
subtree is walked.  (The C's `*violations &= ~RB_VALID` is `x &= ~0`, the
identity, and is omitted.) -/
def rb_validate_tree_recursive : node_t → Nat → Int → node_t × Nat × Int
  | .nil, v, bh => (.nil, if bh != 0 then v ||| 0x10 else v, bh)
  | .node l k c r, v, bh =>
      let v1 := if c != RED && c != BLACK then v ||| 0x01 else v
      let bh1 := if c == BLACK then bh - 1 else bh
      let v2 := if c == RED && (isRed l || isRed r) then v1 ||| 0x08 else v1
      let resL := rb_validate_tree_recursive l v2 bh1
      let resR := rb_validate_tree_recursive r resL.2.1 bh1
      (.node resL.1 k c resR.1, resR.2.1, resR.2.2)

/-- rb_validate_tree in state-passing form: result is the tree as left in
memory plus the violation mask.  `*violations` starts at RB_VALID (0); an
empty tree returns immediately; the root's parent is NULL by construction
(the C asserts this); the expected budget comes from rb_get_black_height;
a RED root sets RB_RED_ROOT (0x02); then the recursive walk runs. -/
def rb_validate_tree : node_t → node_t × Nat
  | .nil => (.nil, 0)
  | .node l k c r =>
      let bh := rb_get_black_height (.node l k c r)
      let v : Nat := if isRed (.node l k c r) then 0x02 else 0
      let res := rb_validate_tree_recursive (.node l k c r) v bh
      (res.1, res.2.1)

/-- Direction of a child slot: left or right. -/
inductive Dir where
  | L : Dir
  | R : Dir
deriving DecidableEq

/-- The opposite child slot. -/
def Dir.flip : Dir → Dir
  | .L => .R
  | .R => .L

/-- The subtree reached from `t` by following a path of child directions from
the root; `none` when the path walks off a NULL link. -/
def nodeAt : node_t → List Dir → Option node_t
  | t, [] => some t
  | .nil, _ :: _ => none
  | .node l _ _ _, .L :: ds => nodeAt l ds
  | .node _ _ _ r, .R :: ds => nodeAt r ds

/-- The child of a node on a given side (NULL for a NULL tree). -/
def childOf : node_t → Dir → node_t
  | .nil, _ => .nil
  | .node l _ _ _, .L => l
  | .node _ _ _ r, .R => r

/-- The C conditional `x == NULL ? BLACK : x->color`. -/
def colorOrBlack : node_t → Nat
  | .nil => BLACK
  | .node _ _ c _ => c

/-- rb_get_uncle_color: a node is addressed by its reversed root path
(`rp.head` = the side the node occupies in its parent), which is the
functional image of the parent chain.  With fewer than two crumbs the C
returns -1 (`none` here): `n->parent == NULL || n->parent->parent == NULL`.
Otherwise the grandparent is looked up; `grandparent->left == n->parent`
holds exactly when the parent's side `d2` is `.L`, and the uncle slot read
is the grandparent's other child, NULL counting as BLACK.  A position whose
grandparent does not exist in the tree is undefined behavior in the C and
maps to `none`. -/
def rb_get_uncle_color (t : node_t) (rp : List Dir) : Option Nat :=
  match rp with
  | _ :: d2 :: rest =>
      match nodeAt t rest.reverse with
      | some (.node gl _ _ gr) =>
          match d2 with
          | .L => some (colorOrBlack gr)
          | .R => some (colorOrBlack gl)
      | _ => none
  | _ => none

/-- Every key in the tree satisfies `p` (semantic helper, not from the C). -/
def allKeys (p : Nat → Bool) : node_t → Bool
  | .nil => true
  | .node l k _ r => p k && allKeys p l && allKeys p r

/-- The strict binary-search-tree invariant, the shape every tree built by
the API's inserts has. -/
def isBST : node_t → Bool
  | .nil => true
  | .node l k _ r =>
      allKeys (fun a => decide (a < k)) l && allKeys (fun a => decide (k < a)) r
        && isBST l && isBST r

/-- Semantic membership: the key occurs somewhere in the tree. -/
def contains : node_t → Nat → Bool
  | .nil, _ => false
  | .node l k _ r, q => (q == k) || contains l q || contains r q

/-- Red-black invariant 4, stated semantically: no RED node has a RED child. -/
def noRedRed : node_t → Bool
  | .nil => true
  | .node l _ c r =>
      (if c == RED then !(isRed l) && !(isRed r) else true)
        && noRedRed l && noRedRed r

/-- The number of BLACK nodes on each root-to-leaf path, one list entry per
NULL leaf, in left-to-right order (semantic helper for invariant 5). -/
def blackPathCounts : node_t → List Nat
  | .nil => [0]
  | .node l _ c r =>
      (blackPathCounts l ++ blackPathCounts r).map
        (fun m => m + (if c == BLACK then 1 else 0))

/-- All entries of the list are equal. -/
def allEqual : List Nat → Bool
  | [] => true
  | x :: xs => xs.all (fun y => y == x)

/-- Follows the spec's words (4.2, `locateInsertionPoint`): the descent
compares the new key against each node's key using the caller-supplied total
order `cmp`, goes left or right on its verdict, stops at the first absent
child slot and attaches a RED node there, and treats an equal key as a
no-op.  This is the comparator-respecting insert the spec's interface
section promises; it exists to be compared with `rb_insert_node`. -/
def specBstInsert (cmp : Nat → Nat → Ordering) : node_t → Nat → node_t
  | .nil, k => .node .nil k RED .nil
  | .node l x c r, k =>
      match cmp k x with
      | .lt => .node (specBstInsert cmp l k) x c r
      | .gt => .node l x c (specBstInsert cmp r k)
      | .eq => .node l x c r

/-! Helper lemmas. -/

/-- If every key of `t` satisfies `p` and `q` occurs in `t`, then `p q`. -/
theorem allKeys_contains (p : Nat → Bool) (t : node_t) (q : Nat) :
    allKeys p t = true → contains t q = true → p q = true := by
  induction t with
  | nil => intro _ hc; simp [contains] at hc
  | node l k c r ihl ihr =>
      intro hp hc
      simp only [allKeys, Bool.and_eq_true] at hp
      obtain ⟨⟨hk, hl⟩, hr⟩ := hp
      simp only [contains, Bool.or_eq_true] at hc
      rcases hc with (hq | hq) | hq
      · exact (eq_of_beq hq) ▸ hk
      · exact ihl hl hq
      · exact ihr hr hq

/-- On a binary search tree the BST descent of `rb_insert_node` finds any key
that is present and returns without linking anything. -/
theorem rb_insert_mem (t : node_t) (q : Nat) :
    isBST t = true → contains t q = true → rb_insert_node t q = t := by
  induction t with
  | nil => intro _ hc; simp [contains] at hc
  | node l x c r ihl ihr =>
      intro hb hc
      simp only [isBST, Bool.and_eq_true] at hb
      obtain ⟨⟨⟨hal, har⟩, hbl⟩, hbr⟩ := hb
      simp only [contains, Bool.or_eq_true] at hc
      rcases hc with (hq | hq) | hq
      · have hqx : q = x := eq_of_beq hq
        subst hqx
        simp [rb_insert_node]
      · have hlt : q < x := by simpa using allKeys_contains _ l q hal hq
        simp [rb_insert_node, hlt, ihl hbl hq]
      · have hgt : x < q := by simpa using allKeys_contains _ r q har hq
        have hnlt : ¬ q < x := Nat.lt_asymm hgt
        simp [rb_insert_node, hnlt, hgt, ihr hbr hq]

/-- The recursive validator walk writes every node back exactly as it found
it: the subtree component of the result is the input subtree. -/
theorem rb_validate_tree_recursive_fst (t : node_t) :
    ∀ (v : Nat) (bh : Int), (rb_validate_tree_recursive t v bh).1 = t := by
  induction t with
  | nil => intro v bh; rfl
  | node l k c r ihl ihr =>
      intro v bh
      simp [rb_validate_tree_recursive, ihl, ihr]

/-- Splitting a root path at an intermediate node. -/
theorem nodeAt_append (p : List Dir) :
    ∀ (t : node_t) (q : List Dir),
      nodeAt t (p ++ q) = (nodeAt t p).bind (fun s => nodeAt s q) := by
  induction p with
  | nil => intro t q; simp [nodeAt]
  | cons d ds ih =>
      intro t q
      cases t with
      | nil => simp [nodeAt]
      | node l k c r =>
          cases d with
          | L => simpa [nodeAt] using ih l q
          | R => simpa [nodeAt] using ih r q

/-! Claim theorems. -/

/-- Claim C1 (code_bug evidence): inserting 1, 2, 3 into the empty tree
leaves the right-leaning chain untouched by any rebalancing, so the tree has
a RED node with a RED child (invariant 4 fails) and rb_validate_tree reports
RB_RED_CHILD_OF_RED ||| RB_UNEQUAL_BLACK_PATHS = 24, not the empty
violation set the claim demands. -/
theorem insert_sequence_violates_invariants :
    noRedRed (insert_node (insert_node (insert_node node_t.nil 1) 2) 3) = false
      ∧ (rb_validate_tree
          (insert_node (insert_node (insert_node node_t.nil 1) 2) 3)).2 = 24 := by
  decide

/-- Claim C2 (code_bug evidence): inserting 10, 20, 30 in that order yields
the chain rooted at 10 (BLACK) with 20 (RED) and 30 (RED) descending to the
right — the root does not become 20 — and rb_validate_tree reports
violations (mask 24), contrary to the claim. -/
theorem insert_10_20_30_not_rebalanced :
    insert_node (insert_node (insert_node node_t.nil 10) 20) 30
        = node_t.node node_t.nil 10 BLACK
            (node_t.node node_t.nil 20 RED (node_t.node node_t.nil 30 RED node_t.nil))
      ∧ (rb_validate_tree
          (insert_node (insert_node (insert_node node_t.nil 10) 20) 30)).2 = 24 := by
  decide

/-- Claim C3 (code_bug evidence): search is an empty void function; in
particular after inserting 10 a search for 10 computes nothing and yields no
node, so search cannot find an inserted, undeleted key. -/
theorem search_returns_no_node :
    (∀ (t : node_t) (k : Nat), search t k = ())
      ∧ search (insert_node node_t.nil 10) 10 = () :=
  ⟨fun _ _ => rfl, rfl⟩

/-- Claim C4 (code_bug evidence): on the single-node tree produced by
inserting the key 1, every root-to-leaf path contains the same number of
BLACK nodes, yet rb_validate_tree returns exactly RB_UNEQUAL_BLACK_PATHS
(16): rb_get_black_height never counts the bottom node of the left spine,
so the budget is one short whenever that node is BLACK. -/
theorem validator_flags_equal_black_paths :
    allEqual (blackPathCounts (insert_node node_t.nil 1)) = true
      ∧ (rb_validate_tree (insert_node node_t.nil 1)).2 = 16 := by
  decide

/-- Claim C5 (counterexample): no caller-supplied comparison function is
consulted.  With the reversed total order — a legitimate comparator a caller
could supply — the spec's comparator-driven descent inserts 2 to the left of
1, but the code's descent compares the raw pointer values with `<` and
inserts it to the right: the code's behavior disagrees with the descent
driven by the supplied comparator. -/
theorem insert_ignores_caller_comparator :
    specBstInsert (fun a b => compare b a)
        (node_t.node node_t.nil 1 BLACK node_t.nil) 2
      ≠ rb_insert_node (node_t.node node_t.nil 1 BLACK node_t.nil) 2 := by
  decide

/-- Claim C5 (amended): every key comparison of the insert descent is the
machine's builtin order on the raw key pointer values: rb_insert_node
coincides with the comparator-driven descent instantiated with the builtin
`compare` on Nat, for every tree and key. -/
theorem rb_insert_node_uses_builtin_compare (t : node_t) (k : Nat) :
    rb_insert_node t k = specBstInsert compare t k := by
  induction t with
  | nil => rfl
  | node l x c r ihl ihr =>
      rcases Nat.lt_trichotomy k x with h | h | h
      · have hc : compare k x = Ordering.lt := Nat.compare_eq_lt.2 h
        simp [rb_insert_node, specBstInsert, hc, h, ihl]
      · subst h
        have hc : compare k k = Ordering.eq := Nat.compare_eq_eq.2 rfl
        simp [rb_insert_node, specBstInsert, hc]
      · have hc : compare k x = Ordering.gt := Nat.compare_eq_gt.2 h
        have hnlt : ¬ k < x := Nat.lt_asymm h
        simp [rb_insert_node, specBstInsert, hc, hnlt, h, ihr]

/-- Claim C6 (counterexample): a NULL key does not produce a recoverable
error return; create_node returns NULL and `assert(newnode)` terminates the
process.  The outcome on the empty tree is an abort, and an abort is not a
normal return with any resulting tree. -/
theorem insert_null_key_aborts :
    insert_node_outcome node_t.nil none = InsertOutcome.abortWith node_t.nil
      ∧ ∀ t : node_t, InsertOutcome.abortWith node_t.nil ≠ InsertOutcome.ret t :=
  ⟨rfl, fun _ h => nomatch h⟩

/-- Claim C6 (amended): for every tree, inserting a NULL key terminates the
program by the failed assertion with the tree still exactly as it was — the
rejection happens before any structural change, but as an abort, not as a
returned error. -/
theorem insert_null_key_abort_leaves_tree (t : node_t) :
    insert_node_outcome t none = InsertOutcome.abortWith t := rfl

/-- Claim C7: inserting a key already present in a binary search tree is a
no-op and not an error: the call returns normally and the tree (structure,
keys and colors) is unchanged. -/
theorem insert_duplicate_noop (t : node_t) (k : Nat)
    (hb : isBST t = true) (hc : contains t k = true) :
    insert_node_outcome t (some k) = InsertOutcome.ret t := by
  have h1 : insert_node t k = t := by
    cases t with
    | nil => simp [contains] at hc
    | node l x c r => simpa [insert_node] using rb_insert_mem _ k hb hc
  simp [insert_node_outcome, create_node, h1]

/-- Witness for C7 at the tree 1 (BLACK) with right child 2 (RED): 2 is
present, the tree is a BST, and inserting 2 again returns it unchanged. -/
theorem insert_duplicate_noop_witness :
    isBST (node_t.node node_t.nil 1 BLACK (node_t.node node_t.nil 2 RED node_t.nil))
        = true
      ∧ contains (node_t.node node_t.nil 1 BLACK
          (node_t.node node_t.nil 2 RED node_t.nil)) 2 = true
      ∧ insert_node_outcome (node_t.node node_t.nil 1 BLACK
            (node_t.node node_t.nil 2 RED node_t.nil)) (some 2)
          = InsertOutcome.ret (node_t.node node_t.nil 1 BLACK
              (node_t.node node_t.nil 2 RED node_t.nil)) :=
  ⟨by decide, by decide, insert_duplicate_noop _ 2 (by decide) (by decide)⟩

/-- Claim C8: for every node that has a parent and a grandparent (a position
with at least two crumbs that genuinely exists in the tree),
rb_get_uncle_color returns the color of the parent's sibling, where an
absent sibling counts as BLACK and a present one contributes its stored
color. -/
theorem rb_get_uncle_color_correct (t z : node_t) (d1 d2 : Dir) (rest : List Dir)
    (hz : nodeAt t ((d1 :: d2 :: rest).reverse) = some z) :
    ∃ gp : node_t, nodeAt t rest.reverse = some gp ∧
      rb_get_uncle_color t (d1 :: d2 :: rest) =
        some (match childOf gp d2.flip with
              | node_t.nil => BLACK
              | node_t.node _ _ cu _ => cu) := by
  have hsplit : (d1 :: d2 :: rest).reverse = rest.reverse ++ [d2, d1] := by
    simp
  rw [hsplit, nodeAt_append] at hz
  rcases Option.bind_eq_some.1 hz with ⟨gp, hgp, hz2⟩
  cases gp with
  | nil => simp [nodeAt] at hz2
  | node gl gk gc gr =>
      refine ⟨node_t.node gl gk gc gr, hgp, ?_⟩
      cases d2 with
      | L =>
          simp only [rb_get_uncle_color, hgp, Dir.flip, childOf]
          cases gr <;> rfl
      | R =>
          simp only [rb_get_uncle_color, hgp, Dir.flip, childOf]
          cases gl <;> rfl

/-- Witness for C8: in the tree 3 (BLACK) with left subtree 2-1 and right
child 4 (RED), the node at reversed path [L, L] (key 1) has parent 2 and
grandparent 3, and its uncle color is RED, the stored color of node 4. -/
theorem rb_get_uncle_color_correct_witness :
    nodeAt (node_t.node (node_t.node (node_t.node node_t.nil 1 RED node_t.nil) 2 RED
          node_t.nil) 3 BLACK (node_t.node node_t.nil 4 RED node_t.nil))
        (([Dir.L, Dir.L] : List Dir).reverse)
        = some (node_t.node node_t.nil 1 RED node_t.nil)
      ∧ ∃ gp : node_t,
          nodeAt (node_t.node (node_t.node (node_t.node node_t.nil 1 RED node_t.nil) 2
                RED node_t.nil) 3 BLACK (node_t.node node_t.nil 4 RED node_t.nil))
              (([] : List Dir).reverse) = some gp ∧
            rb_get_uncle_color (node_t.node (node_t.node (node_t.node node_t.nil 1 RED
                  node_t.nil) 2 RED node_t.nil) 3 BLACK
                (node_t.node node_t.nil 4 RED node_t.nil)) [Dir.L, Dir.L] =
              some (match childOf gp Dir.L.flip with
                    | node_t.nil => BLACK
                    | node_t.node _ _ cu _ => cu) :=
  ⟨by decide,
    rb_get_uncle_color_correct _ (node_t.node node_t.nil 1 RED node_t.nil)
      Dir.L Dir.L [] (by decide)⟩

/-- Claim C9: the validator is read-only: for every tree, the tree as left
in memory after rb_validate_tree is exactly the input tree — every key,
color and child link unchanged (and the root still has no parent); only the
violation mask is produced. -/
theorem rb_validate_leaves_tree_unchanged (t : node_t) :
    (rb_validate_tree t).1 = t := by
  cases t with
  | nil => rfl
  | node l k c r =>
      simp [rb_validate_tree, rb_validate_tree_recursive_fst]

/-- Claim C10: delete_node has an empty body; for every tree and every key,
including keys present in the tree, the call leaves the tree exactly as it
was — no node removed, relinked or recolored. -/
theorem delete_node_leaves_tree_unchanged (t : node_t) (v : Nat) :
    delete_node t v = t := rfl
